import Mathlib

/-!
Verification development for the swarm simulator's communication core.

The message-router side (send path, receive path, neighbor-list ingestion,
battery update) is embedded from `src/src/RobotPlugin.cc`.  The connectivity
engine (`CommsModel`) ships only as a header in this repository
(`src/include/swarm/CommsModel.hh`); its behaviour is modelled from the
specification, as marked on each such definition.
-/

namespace Swarm

/-- A datagram as built by `RobotPlugin::SendTo` and consumed by
`RobotPlugin::OnMsgReceived` (`msgs::Datagram`): source address, destination
address, destination port, payload, and the recipients list computed by the
broker. -/
structure Datagram where
  srcAddress : String
  dstAddress : String
  dstPort : Nat
  data : String
  recipients : List String
deriving DecidableEq

/-- Result of `RobotPlugin::SendTo`.  The C++ function returns `false` in two
distinguishable branches (payload larger than the MTU, or a failed publish on
the broker topic) and `true` otherwise. -/
inductive SendResult where
  | success
  | payloadTooLarge
  | publishFailure
deriving DecidableEq

/-- Embedding of `RobotPlugin::SendTo` (RobotPlugin.cc lines 62-93).
Returns the send result together with the datagram actually handed to a
successful broker publish (`none` when no datagram was published: either the
payload exceeded `kMtu` so no publish was attempted, or the publish failed). -/
def sendTo (kMtu : Nat) (host : String) (data : String) (dstAddress : String)
    (port : Nat) (publishOk : Bool) : SendResult × Option Datagram :=
  if data.length > kMtu then
    (SendResult.payloadTooLarge, none)
  else
    let msg : Datagram := Datagram.mk host dstAddress port data []
    if publishOk then (SendResult.success, some msg)
    else (SendResult.publishFailure, none)

/-- Outcome of `RobotPlugin::OnMsgReceived`: the router either reports an
unknown destination, invokes the user callback with the datagram's fields, or
silently discards the message. -/
inductive RecvOutcome where
  | unknownDestination
  | delivered (srcAddress dstAddress : String) (dstPort : Nat) (data : String)
  | discarded
deriving DecidableEq

/-- The callback-map key built by `RobotPlugin::OnMsgReceived` from the
datagram's destination address and port. -/
def topicOf (msg : Datagram) : String :=
  "/swarm/" ++ msg.dstAddress ++ "/" ++ toString msg.dstPort

/-- Embedding of `RobotPlugin::OnMsgReceived` (RobotPlugin.cc lines 732-763).
`cbs` is the set of topic keys with a registered callback.  If the topic is
unregistered the router reports the error and returns; otherwise the callback
runs only when this robot's address occurs in the datagram's recipients. -/
def onMsgReceived (host : String) (cbs : List String) (msg : Datagram) :
    RecvOutcome :=
  if cbs.contains (topicOf msg) = false then
    RecvOutcome.unknownDestination
  else if msg.recipients.contains host then
    RecvOutcome.delivered msg.srcAddress msg.dstAddress msg.dstPort msg.data
  else
    RecvOutcome.discarded

/-- Embedding of `RobotPlugin::OnNeighborsReceived` (RobotPlugin.cc lines
766-777): the local neighbor list `old` is cleared, then every address of the
message other than this robot's own address is appended in order. -/
def onNeighborsReceived (host : String) (old : List String)
    (msgNeighbors : List String) : List String :=
  let cleared : List String := []
  msgNeighbors.foldl (fun acc n => if n ≠ host then acc ++ [n] else acc) cleared

/-- Embedding of `RobotPlugin::UpdateBattery` (RobotPlugin.cc lines 973-1008).
`distToBOO` is `none` when no BOO model exists (the C++ code then keeps the
distance at `IGN_DBL_MAX`, which is never below a finite recharge distance);
`stationary` abstracts `linearVelocityNoNoise == 0 && angularVelocityNoNoise
== 0`; `stepSize` is the physics engine's max step size.  Returns the new
capacity. -/
def updateBattery (modelName : String) (booRechargeDistance : ℚ)
    (distToBOO : Option ℚ) (stationary : Bool) (stepSize : ℚ)
    (startCapacity capacity consumption consumptionFactor : ℚ) : ℚ :=
  if modelName = "boo" then capacity
  else
    let nearBOO : Bool :=
      match distToBOO with
      | some d => decide (d < booRechargeDistance)
      | none => false
    if nearBOO && stationary then
      min (capacity + consumption * (consumptionFactor * 4) * (stepSize / 3600))
        startCapacity
    else
      max 0 (capacity - consumption * consumptionFactor * (stepSize / 3600))

/-- Modelled from the spec: result of the occlusion query issued by
`CommsModel::LineOfSight`, whose implementation file is not in this
repository.  The legacy encoding (a one-element vector holding an empty
string for clear line of sight, or the first and last obstacle names) is
replaced by the tagged result the spec prescribes. -/
inductive ObstructionResult where
  | clear
  | obstructed (first last : String)
deriving DecidableEq

/-- The numeric thresholds of the communication model, mirroring the fields
of `CommsModel` declared in `src/include/swarm/CommsModel.hh` (lines
93-136). -/
structure CommsConfig where
  neighborDistanceMin : ℚ
  neighborDistanceMax : ℚ
  neighborDistancePenaltyTree : ℚ
  commsDistanceMin : ℚ
  commsDistanceMax : ℚ
  commsDistancePenaltyTree : ℚ
  commsDropProbabilityMin : ℚ
  commsDropProbabilityMax : ℚ
  commsOutageProbability : ℚ
  commsOutageDurationMin : ℚ
  commsOutageDurationMax : ℚ
deriving DecidableEq

/-- Modelled from the spec: the effective distance of a pair for one policy
(the implementation of `CommsModel::UpdateNeighborList` is not in this
repository).  `none` encodes an infinite effective distance: an obstructed
pair with a negative penalty is fully blocked. -/
def effectiveDistance (euclid : ℚ) (obst : ObstructionResult)
    (penaltyTree : ℚ) : Option ℚ :=
  match obst with
  | ObstructionResult.clear => some euclid
  | ObstructionResult.obstructed _ _ =>
      if penaltyTree < 0 then none else some (euclid + penaltyTree)

/-- Modelled from the spec: a pair satisfies a distance policy when
`min ≤ effectiveDistance ≤ max`, a negative `min` or `max` imposing no
constraint on that side; an infinite effective distance never satisfies a
policy. -/
def satisfiesPolicy (mn mx : ℚ) (eff : Option ℚ) : Bool :=
  match eff with
  | none => false
  | some d =>
      (decide (mn < 0) || decide (mn ≤ d)) && (decide (mx < 0) || decide (d ≤ mx))

/-- Modelled from the spec: neighbor eligibility of a pair at Euclidean
distance `d` with obstruction result `obst`, using the neighbor policy
parameters. -/
def pairEligibleNeighbor (cfg : CommsConfig) (d : ℚ)
    (obst : ObstructionResult) : Bool :=
  satisfiesPolicy cfg.neighborDistanceMin cfg.neighborDistanceMax
    (effectiveDistance d obst cfg.neighborDistancePenaltyTree)

/-- Modelled from the spec: comms eligibility additionally requires neighbor
eligibility, then the comms policy with its own parameters. -/
def pairEligibleComms (cfg : CommsConfig) (d : ℚ)
    (obst : ObstructionResult) : Bool :=
  pairEligibleNeighbor cfg d obst &&
    satisfiesPolicy cfg.commsDistanceMin cfg.commsDistanceMax
      (effectiveDistance d obst cfg.commsDistancePenaltyTree)

/-- Modelled from the spec: per-node state held by the connectivity engine
(address, outage state, last pushed neighbor list).  The engine's
implementation file is not in this repository; only the `CommsModel` header
is. -/
structure Member where
  address : String
  inOutage : Bool
  outageEndTime : Option ℚ
  neighbors : List String
deriving DecidableEq

/-- Modelled from the spec: the per-node outage transition performed by
`CommsModel::UpdateOutages` (implementation not in this repository).  A node
in outage returns to active when the clock reaches its outage end time; an
active node enters outage when its random draw fires, recording an end time
`now` plus the drawn duration. -/
def updateMemberOutage (now : ℚ) (enterDraw : Bool) (durationDraw : ℚ)
    (m : Member) : Member :=
  if m.inOutage then
    match m.outageEndTime with
    | some t =>
        if t ≤ now then Member.mk m.address false none m.neighbors else m
    | none => m
  else if enterDraw then
    Member.mk m.address true (some (now + durationDraw)) m.neighbors
  else m

/-- Modelled from the spec: `CommsModel::UpdateOutages` applies the outage
transition to every member of the swarm; the random draws are abstracted as
per-address inputs. -/
def updateOutages (now : ℚ) (enterDraw : String → Bool)
    (durationDraw : String → ℚ) (ms : List Member) : List Member :=
  ms.map (fun m =>
    updateMemberOutage now (enterDraw m.address) (durationDraw m.address) m)

/-- Modelled from the spec: `CommsModel::UpdateNeighborList` recomputes one
node's neighbor list: empty while the node is in outage, otherwise every
other non-outaged member whose pair is neighbor-eligible.  `dist` and `obst`
abstract the world state provider's positions and occlusion queries. -/
def updateNeighborList (cfg : CommsConfig) (dist : String → String → ℚ)
    (obst : String → String → ObstructionResult) (ms : List Member)
    (m : Member) : List String :=
  if m.inOutage then []
  else
    (ms.filter (fun o =>
      decide (o.address ≠ m.address) && !o.inOutage &&
        pairEligibleNeighbor cfg (dist m.address o.address)
          (obst m.address o.address))).map Member.address

/-- Modelled from the spec: `CommsModel::UpdateNeighbors` recomputes and
pushes the neighbor list of every member, replacing the previous one. -/
def updateNeighbors (cfg : CommsConfig) (dist : String → String → ℚ)
    (obst : String → String → ObstructionResult) (ms : List Member) :
    List Member :=
  ms.map (fun m => Member.mk m.address m.inOutage m.outageEndTime
    (updateNeighborList cfg dist obst ms m))

/-- Modelled from the spec: `CommsModel::Update` runs the outage update and
then the neighbor recomputation, once per tick. -/
def commsModelUpdate (cfg : CommsConfig) (now : ℚ)
    (enterDraw : String → Bool) (durationDraw : String → ℚ)
    (dist : String → String → ℚ)
    (obst : String → String → ObstructionResult) (ms : List Member) :
    List Member :=
  updateNeighbors cfg dist obst (updateOutages now enterDraw durationDraw ms)

/-- Modelled from the spec: the broker's per-candidate recipient test on the
send path — candidate and sender must be in each other's neighbor set, the
pair must be comms-eligible, and the per-message drop draw must not discard
it. -/
def eligibleRecipient (cfg : CommsConfig) (dist : String → String → ℚ)
    (obst : String → String → ObstructionResult) (sender candidate : Member)
    (dropOk : Bool) : Bool :=
  sender.neighbors.contains candidate.address &&
    candidate.neighbors.contains sender.address &&
    pairEligibleComms cfg (dist sender.address candidate.address)
      (obst sender.address candidate.address) &&
    dropOk

end Swarm

namespace Swarm

example : sendTo 10 "a" "hello" "b" 1 true
    = (SendResult.success, some (Datagram.mk "a" "b" 1 "hello" [])) := by decide

example : sendTo 3 "a" "hello" "b" 1 true
    = (SendResult.payloadTooLarge, none) := by decide

example :
    onMsgReceived "a" ["/swarm/a/1"]
      (Datagram.mk "s" "a" 1 "x" ["a"])
    = RecvOutcome.delivered "s" "a" 1 "x" := by decide

example :
    onMsgReceived "a" []
      (Datagram.mk "s" "a" 1 "x" ["a"])
    = RecvOutcome.unknownDestination := by decide

example :
    onMsgReceived "a" ["/swarm/a/1"]
      (Datagram.mk "s" "a" 1 "x" ["b"])
    = RecvOutcome.discarded := by decide

example : onNeighborsReceived "a" ["z"] ["b", "a", "c"] = ["b", "c"] := by decide

example : updateBattery "boo" 5 (some 1) true 1 10 3 2 1 = 3 := by decide

/-- The neighbor-ingestion fold equals clearing the list and filtering the
message's addresses by inequality with the host. -/
theorem onNeighborsReceived_eq_filter (host : String) (old msgN : List String) :
    onNeighborsReceived host old msgN
      = msgN.filter (fun n => decide (n ≠ host)) := by
  show msgN.foldl (fun acc n => if n ≠ host then acc ++ [n] else acc) []
      = msgN.filter fun n => decide (n ≠ host)
  have key : ∀ (l acc : List String),
      l.foldl (fun acc n => if n ≠ host then acc ++ [n] else acc) acc
        = acc ++ l.filter fun n => decide (n ≠ host) := by
    intro l
    induction l with
    | nil => intro acc; simp
    | cons a t ih =>
        intro acc
        rw [List.foldl_cons, List.filter_cons]
        by_cases h : a = host
        · have h1 : (if a ≠ host then acc ++ [a] else acc) = acc := by
            simp [h]
          have h2 : decide (a ≠ host) = false := by simp [h]
          rw [h1, h2, ih acc]
          simp
        · have h1 : (if a ≠ host then acc ++ [a] else acc) = acc ++ [a] := by
            simp [h]
          have h2 : decide (a ≠ host) = true := by simp [h]
          rw [h1, h2, ih (acc ++ [a])]
          simp
  simpa using key msgN []

/-- C4: `SendTo` rejects an oversized payload synchronously with
`PayloadTooLarge` and publishes nothing; it reports `PublishFailure` when the
broker publish fails; otherwise it succeeds — so the send succeeds exactly
when the payload fits in the MTU and the publish goes through. -/
theorem sendTo_error_contract (kMtu : Nat) (host data dstAddress : String)
    (port : Nat) (publishOk : Bool) :
    (data.length > kMtu →
      sendTo kMtu host data dstAddress port publishOk
        = (SendResult.payloadTooLarge, none))
    ∧ (data.length ≤ kMtu → publishOk = false →
        (sendTo kMtu host data dstAddress port publishOk).1
          = SendResult.publishFailure)
    ∧ (data.length ≤ kMtu → publishOk = true →
        (sendTo kMtu host data dstAddress port publishOk).1
          = SendResult.success)
    ∧ ((sendTo kMtu host data dstAddress port publishOk).1 = SendResult.success
        ↔ data.length ≤ kMtu ∧ publishOk = true) := by
  refine ⟨?_, ?_, ?_, ?_⟩
  · intro h
    simp [sendTo, h]
  · intro h hp
    subst hp
    simp [sendTo, Nat.not_lt.mpr h]
  · intro h hp
    subst hp
    simp [sendTo, Nat.not_lt.mpr h]
  · constructor
    · intro hs
      by_cases h : data.length > kMtu
      · simp [sendTo, h] at hs
      · cases hp : publishOk
        · subst hp
          simp [sendTo, h] at hs
        · exact ⟨Nat.not_lt.mp h, rfl⟩
    · rintro ⟨h, hp⟩
      subst hp
      simp [sendTo, Nat.not_lt.mpr h]

/-- Witness for the send contract at a concrete oversized and a concrete
successful call. -/
theorem sendTo_error_contract_witness :
    sendTo 3 "a" "hello" "b" 1 true = (SendResult.payloadTooLarge, none)
    ∧ (sendTo 10 "a" "hello" "b" 1 true).1 = SendResult.success :=
  ⟨(sendTo_error_contract 3 "a" "hello" "b" 1 true).1 (by decide),
   (sendTo_error_contract 10 "a" "hello" "b" 1 true).2.2.1 (by decide) rfl⟩

/-- C3: when the destination topic has a registered callback, the callback
runs exactly when this robot's address occurs in the datagram's recipients
list; and in every case a delivery implies the robot's address was in the
recipients list. -/
theorem onMsgReceived_recipients_gate (host : String) (cbs : List String)
    (msg : Datagram) :
    (cbs.contains (topicOf msg) = true →
      (onMsgReceived host cbs msg
          = RecvOutcome.delivered msg.srcAddress msg.dstAddress msg.dstPort
              msg.data
        ↔ msg.recipients.contains host = true))
    ∧ (∀ s d p b, onMsgReceived host cbs msg = RecvOutcome.delivered s d p b →
        msg.recipients.contains host = true) := by
  constructor
  · intro hreg
    unfold onMsgReceived
    split
    · rename_i hcond
      rw [hreg] at hcond
      exact absurd hcond (by decide)
    · split
      · rename_i hvis
        exact ⟨fun _ => hvis, fun _ => rfl⟩
      · rename_i hvis
        constructor
        · intro hc
          exact RecvOutcome.noConfusion hc
        · intro hv
          exact absurd hv hvis
  · intro s d p b hdel
    unfold onMsgReceived at hdel
    split at hdel
    · exact RecvOutcome.noConfusion hdel
    · split at hdel
      · rename_i hvis
        exact hvis
      · exact RecvOutcome.noConfusion hdel

/-- Witness for the recipients gate: a registered destination whose
recipients list contains the host is delivered. -/
theorem onMsgReceived_recipients_gate_witness :
    onMsgReceived "a" ["/swarm/a/1"] (Datagram.mk "s" "a" 1 "x" ["a"])
      = RecvOutcome.delivered "s" "a" 1 "x" :=
  ((onMsgReceived_recipients_gate "a" ["/swarm/a/1"]
      (Datagram.mk "s" "a" 1 "x" ["a"])).1 (by decide)).mpr (by decide)

/-- C6: a datagram whose destination topic has no registered callback is
reported as an unknown destination and dropped: no callback runs. -/
theorem onMsgReceived_unknown_destination (host : String) (cbs : List String)
    (msg : Datagram) (hunreg : cbs.contains (topicOf msg) = false) :
    onMsgReceived host cbs msg = RecvOutcome.unknownDestination := by
  unfold onMsgReceived
  split
  · rfl
  · rename_i hcond
    exact absurd hunreg hcond

/-- Witness for the unknown-destination report with no registered
callbacks. -/
theorem onMsgReceived_unknown_destination_witness :
    onMsgReceived "a" [] (Datagram.mk "s" "a" 1 "x" ["a"])
      = RecvOutcome.unknownDestination :=
  onMsgReceived_unknown_destination "a" [] (Datagram.mk "s" "a" 1 "x" ["a"])
    (by decide)

/-- C9: the registered-callback check precedes the recipients check — an
unregistered destination reports the error even when the host is not in the
recipients list, while a registered destination with the host absent from
the recipients list discards the message silently. -/
theorem onMsgReceived_check_order (host : String) (cbs : List String)
    (msg : Datagram) :
    (cbs.contains (topicOf msg) = false →
      msg.recipients.contains host = false →
        onMsgReceived host cbs msg = RecvOutcome.unknownDestination)
    ∧ (cbs.contains (topicOf msg) = true →
        msg.recipients.contains host = false →
          onMsgReceived host cbs msg = RecvOutcome.discarded) := by
  constructor
  · intro hunreg _
    unfold onMsgReceived
    split
    · rfl
    · rename_i hcond
      exact absurd hunreg hcond
  · intro hreg hvis
    unfold onMsgReceived
    split
    · rename_i hcond
      rw [hreg] at hcond
      exact absurd hcond (by decide)
    · split
      · rename_i h
        rw [hvis] at h
        exact absurd h (by decide)
      · rfl

/-- Witness for the check order, on an unregistered and on a registered
destination, the host absent from the recipients in both. -/
theorem onMsgReceived_check_order_witness :
    onMsgReceived "a" [] (Datagram.mk "s" "a" 1 "x" [])
      = RecvOutcome.unknownDestination
    ∧ onMsgReceived "a" ["/swarm/a/1"] (Datagram.mk "s" "a" 1 "x" [])
      = RecvOutcome.discarded :=
  ⟨(onMsgReceived_check_order "a" [] (Datagram.mk "s" "a" 1 "x" [])).1
      (by decide) (by decide),
   (onMsgReceived_check_order "a" ["/swarm/a/1"]
      (Datagram.mk "s" "a" 1 "x" [])).2 (by decide) (by decide)⟩

/-- C5: a neighbor update replaces the local list by the message's addresses
with the robot's own address removed — the result is the filtered message
list, never contains the host, only contains addresses of the message, and
does not depend on the previous list. -/
theorem onNeighborsReceived_replaces (host : String) (old msgN : List String) :
    onNeighborsReceived host old msgN
        = msgN.filter (fun n => decide (n ≠ host))
    ∧ host ∉ onNeighborsReceived host old msgN
    ∧ (∀ a ∈ onNeighborsReceived host old msgN, a ∈ msgN)
    ∧ (∀ old2, onNeighborsReceived host old2 msgN
        = onNeighborsReceived host old msgN) := by
  refine ⟨onNeighborsReceived_eq_filter host old msgN, ?_, ?_, fun old2 => rfl⟩
  · rw [onNeighborsReceived_eq_filter host old msgN]
    intro hmem
    have := (List.mem_filter.mp hmem).2
    simp at this
  · intro a ha
    rw [onNeighborsReceived_eq_filter host old msgN] at ha
    exact (List.mem_filter.mp ha).1

/-- Witness for the neighbor replacement on a concrete message containing the
host's own address. -/
theorem onNeighborsReceived_replaces_witness :
    onNeighborsReceived "a" ["z"] ["b", "a", "c"]
        = (["b", "a", "c"].filter fun n => decide (n ≠ "a"))
    ∧ "a" ∉ onNeighborsReceived "a" ["z"] ["b", "a", "c"] :=
  ⟨(onNeighborsReceived_replaces "a" ["z"] ["b", "a", "c"]).1,
   (onNeighborsReceived_replaces "a" ["z"] ["b", "a", "c"]).2.1⟩

/-- C10: for a robot other than the one named "boo", the battery update keeps
the capacity in `[0, startCapacity]` whenever consumption, consumption factor
and step size are non-negative and the capacity starts in that interval; the
robot named "boo" is left unchanged. -/
theorem updateBattery_bounds (modelName : String) (booRechargeDistance : ℚ)
    (distToBOO : Option ℚ) (stationary : Bool)
    (stepSize startCapacity capacity consumption consumptionFactor : ℚ)
    (hcons : 0 ≤ consumption) (hfac : 0 ≤ consumptionFactor)
    (hstep : 0 ≤ stepSize) (hlo : 0 ≤ capacity) (hhi : capacity ≤ startCapacity) :
    (0 ≤ updateBattery modelName booRechargeDistance distToBOO stationary
        stepSize startCapacity capacity consumption consumptionFactor
      ∧ updateBattery modelName booRechargeDistance distToBOO stationary
          stepSize startCapacity capacity consumption consumptionFactor
        ≤ startCapacity)
    ∧ (modelName = "boo" →
        updateBattery modelName booRechargeDistance distToBOO stationary
          stepSize startCapacity capacity consumption consumptionFactor
          = capacity) := by
  have hrecharge :
      0 ≤ consumption * (consumptionFactor * 4) * (stepSize / 3600) := by
    apply mul_nonneg (mul_nonneg hcons (by linarith)) (by positivity)
  have hconsumed : 0 ≤ consumption * consumptionFactor * (stepSize / 3600) := by
    apply mul_nonneg (mul_nonneg hcons hfac) (by positivity)
  unfold updateBattery
  by_cases hname : modelName = "boo"
  · simp [hname, hlo, hhi]
  · simp only [hname, if_false]
    refine ⟨⟨?_, ?_⟩, fun hc => hc.elim⟩
    · split
      · exact le_min (by linarith) (by linarith)
      · exact le_max_left 0 _
    · split
      · exact min_le_right _ _
      · exact max_le (by linarith) (by linarith)

/-- Witness for the battery bounds at a concrete recharging robot and for the
unchanged "boo" model. -/
theorem updateBattery_bounds_witness :
    (0 ≤ updateBattery "r1" 5 (some 1) true 3600 10 3 2 1
      ∧ updateBattery "r1" 5 (some 1) true 3600 10 3 2 1 ≤ 10)
    ∧ updateBattery "boo" 5 (some 1) true 3600 10 3 2 1 = 3 :=
  ⟨(updateBattery_bounds "r1" 5 (some 1) true 3600 10 3 2 1 (by decide)
      (by decide) (by decide) (by decide) (by decide)).1,
   (updateBattery_bounds "boo" 5 (some 1) true 3600 10 3 2 1 (by decide)
      (by decide) (by decide) (by decide) (by decide)).2 rfl⟩

/-- C1: the effective distance of a pair is the Euclidean distance plus zero
when the line of sight is clear, plus the policy's tree penalty when
obstructed with a non-negative penalty, and infinite (`none`) when obstructed
with a negative penalty; a finite effective distance satisfies a policy
exactly when it is within `[min, max]`, a negative bound imposing no
constraint on its side, and an infinite one never does; comms eligibility
implies neighbor eligibility. -/
theorem effectiveDistance_policy_spec (cfg : CommsConfig) (d e pen mn mx : ℚ)
    (fst lst : String) (obst : ObstructionResult) :
    effectiveDistance d ObstructionResult.clear pen = some (d + 0)
    ∧ (0 ≤ pen →
        effectiveDistance d (ObstructionResult.obstructed fst lst) pen
          = some (d + pen))
    ∧ (pen < 0 →
        effectiveDistance d (ObstructionResult.obstructed fst lst) pen = none)
    ∧ (satisfiesPolicy mn mx (some e) = true
        ↔ ((mn < 0 ∨ mn ≤ e) ∧ (mx < 0 ∨ e ≤ mx)))
    ∧ satisfiesPolicy mn mx none = false
    ∧ (pairEligibleComms cfg d obst = true →
        pairEligibleNeighbor cfg d obst = true) := by
  refine ⟨?_, ?_, ?_, ?_, rfl, ?_⟩
  · simp [effectiveDistance]
  · intro h
    simp [effectiveDistance, not_lt.mpr h]
  · intro h
    simp [effectiveDistance, h]
  · simp [satisfiesPolicy]
  · intro h
    unfold pairEligibleComms at h
    exact ((Bool.and_eq_true _ _).mp h).1

/-- Witness for the distance and policy scoring on concrete obstructed pairs
and a concrete comms-eligible pair. -/
theorem effectiveDistance_policy_spec_witness :
    effectiveDistance 5 (ObstructionResult.obstructed "tree" "rock") 2
        = some (5 + 2)
    ∧ effectiveDistance 5 (ObstructionResult.obstructed "tree" "rock") (-1)
        = none
    ∧ pairEligibleNeighbor
        (CommsConfig.mk (-1) (-1) 0 (-1) (-1) 0 0 0 0 (-1) (-1)) 1
        ObstructionResult.clear = true :=
  ⟨(effectiveDistance_policy_spec
      (CommsConfig.mk (-1) (-1) 0 (-1) (-1) 0 0 0 0 (-1) (-1)) 5 0 2 0 0
      "tree" "rock" ObstructionResult.clear).2.1 (by decide),
   (effectiveDistance_policy_spec
      (CommsConfig.mk (-1) (-1) 0 (-1) (-1) 0 0 0 0 (-1) (-1)) 5 0 (-1) 0 0
      "tree" "rock" ObstructionResult.clear).2.2.1 (by decide),
   (effectiveDistance_policy_spec
      (CommsConfig.mk (-1) (-1) 0 (-1) (-1) 0 0 0 0 (-1) (-1)) 1 0 0 0 0
      "tree" "rock" ObstructionResult.clear).2.2.2.2.2 (by decide)⟩

/-- C7: after an outage update at time `now`, a node in outage has a recorded
end time strictly in the future, provided the pre-state satisfies the basic
invariant (an outaged node has an end time) and the drawn duration is
positive; and a node that was in outage leaves it exactly when the clock has
reached its end time. -/
theorem updateMemberOutage_invariant (now dur : ℚ) (enterDraw : Bool)
    (m : Member)
    (hpre : m.inOutage = true → ∃ t, m.outageEndTime = some t)
    (hdur : 0 < dur) :
    ((updateMemberOutage now enterDraw dur m).inOutage = true →
      ∃ t, (updateMemberOutage now enterDraw dur m).outageEndTime = some t
        ∧ now < t)
    ∧ (∀ t, m.inOutage = true → m.outageEndTime = some t →
        ((updateMemberOutage now enterDraw dur m).inOutage = false
          ↔ t ≤ now)) := by
  rcases m with ⟨addr, io, oet, nb⟩
  cases io with
  | false =>
      constructor
      · intro h
        cases enterDraw with
        | false => simp [updateMemberOutage] at h
        | true =>
            refine ⟨now + dur, ?_, by linarith⟩
            simp [updateMemberOutage]
      · intro t hio
        simp at hio
  | true =>
      obtain ⟨t0, ht0⟩ := hpre rfl
      have ht0' : oet = some t0 := ht0
      subst ht0'
      constructor
      · intro h
        by_cases hle : t0 ≤ now
        · simp [updateMemberOutage, hle] at h
        · refine ⟨t0, ?_, not_le.mp hle⟩
          simp [updateMemberOutage, hle]
      · intro t hio ht
        have ht' : t0 = t := Option.some.inj ht
        subst ht'
        by_cases hle : t0 ≤ now
        · simp [updateMemberOutage, hle]
        · simp [updateMemberOutage, hle]

/-- Witness for the outage state machine: a node whose outage window has
elapsed transitions back to active. -/
theorem updateMemberOutage_invariant_witness :
    (updateMemberOutage 7 false 1 (Member.mk "a" true (some 5) [])).inOutage
      = false :=
  ((updateMemberOutage_invariant 7 1 false (Member.mk "a" true (some 5) [])
      (fun _ => ⟨5, rfl⟩) (by decide)).2 5 rfl rfl).mpr (by decide)

/-- The outage transition never changes a member's address. -/
theorem updateMemberOutage_address (now : ℚ) (enterDraw : Bool) (dur : ℚ)
    (m : Member) :
    (updateMemberOutage now enterDraw dur m).address = m.address := by
  unfold updateMemberOutage
  split
  · split
    · split
      · rfl
      · rfl
    · rfl
  · split
    · rfl
    · rfl

/-- The outage pass preserves the address roster. -/
theorem updateOutages_map_address (now : ℚ) (enterDraw : String → Bool)
    (durationDraw : String → ℚ) (ms : List Member) :
    (updateOutages now enterDraw durationDraw ms).map Member.address
      = ms.map Member.address := by
  unfold updateOutages
  rw [List.map_map]
  apply List.map_congr_left
  intro a _
  exact updateMemberOutage_address now (enterDraw a.address)
    (durationDraw a.address) a

/-- Filtering then projecting addresses ignores a field rewrite that keeps
address and outage flag. -/
theorem filter_map_address (p : Member → Bool) (g : Member → Member)
    (haddr : ∀ a, (g a).address = a.address)
    (hp : ∀ a, p (g a) = p a) :
    ∀ ms : List Member,
      ((ms.map g).filter p).map Member.address
        = (ms.filter p).map Member.address := by
  intro ms
  induction ms with
  | nil => rfl
  | cons a t ih =>
      rw [List.map_cons, List.filter_cons, List.filter_cons, hp a]
      by_cases h : p a = true
      · rw [if_pos h, if_pos h, List.map_cons, List.map_cons, haddr a, ih]
      · rw [if_neg h, if_neg h, ih]

/-- Recomputing one neighbor list is insensitive to the neighbor fields of
the roster it ranges over. -/
theorem updateNeighborList_map_inv (cfg : CommsConfig)
    (dist : String → String → ℚ)
    (obst : String → String → ObstructionResult) (nb : Member → List String)
    (m : Member) (ms : List Member) :
    updateNeighborList cfg dist obst
        (ms.map fun a =>
          Member.mk a.address a.inOutage a.outageEndTime (nb a)) m
      = updateNeighborList cfg dist obst ms m := by
  unfold updateNeighborList
  by_cases hio : m.inOutage = true
  · rw [if_pos hio, if_pos hio]
  · rw [if_neg hio, if_neg hio]
    exact filter_map_address
      (fun o => decide (o.address ≠ m.address) && !o.inOutage &&
        pairEligibleNeighbor cfg (dist m.address o.address)
          (obst m.address o.address))
      (fun a => Member.mk a.address a.inOutage a.outageEndTime (nb a))
      (fun a => rfl) (fun a => rfl) ms

/-- C8: recomputing the neighbor derivation a second time, with positions,
occlusion results and outage states unchanged, returns the same roster — in
particular every node's neighbor set is unchanged. -/
theorem updateNeighbors_idempotent (cfg : CommsConfig)
    (dist : String → String → ℚ)
    (obst : String → String → ObstructionResult) (ms : List Member) :
    updateNeighbors cfg dist obst (updateNeighbors cfg dist obst ms)
      = updateNeighbors cfg dist obst ms := by
  unfold updateNeighbors
  rw [List.map_map]
  apply List.map_congr_left
  intro a _
  show Member.mk a.address a.inOutage a.outageEndTime
      (updateNeighborList cfg dist obst
        (ms.map fun m => Member.mk m.address m.inOutage m.outageEndTime
          (updateNeighborList cfg dist obst ms m)) a)
    = Member.mk a.address a.inOutage a.outageEndTime
        (updateNeighborList cfg dist obst ms a)
  rw [updateNeighborList_map_inv]

/-- C2: after a tick update, a node in outage has an empty neighbor set, its
address occurs in no other node's neighbor set, and it is never an eligible
recipient nor an eligible sender of any message. -/
theorem commsModelUpdate_outage_isolated (cfg : CommsConfig) (now : ℚ)
    (enterDraw : String → Bool) (durationDraw : String → ℚ)
    (dist : String → String → ℚ)
    (obst : String → String → ObstructionResult) (ms : List Member)
    (hnodup : (ms.map Member.address).Nodup) :
    ∀ m ∈ commsModelUpdate cfg now enterDraw durationDraw dist obst ms,
      m.inOutage = true →
        m.neighbors = []
        ∧ (∀ o ∈ commsModelUpdate cfg now enterDraw durationDraw dist obst ms,
            o.address ≠ m.address → ¬ m.address ∈ o.neighbors)
        ∧ (∀ o dropOk, eligibleRecipient cfg dist obst m o dropOk = false)
        ∧ (∀ s dropOk, eligibleRecipient cfg dist obst s m dropOk = false) := by
  intro m hm hio
  obtain ⟨a, ha, rfl⟩ := List.mem_map.mp hm
  have hioa : a.inOutage = true := hio
  have hnodup' :
      ((updateOutages now enterDraw durationDraw ms).map Member.address).Nodup := by
    rw [updateOutages_map_address]
    exact hnodup
  have hnb : updateNeighborList cfg dist obst
      (updateOutages now enterDraw durationDraw ms) a = [] := by
    simp [updateNeighborList, hioa]
  refine ⟨hnb, ?_, ?_, ?_⟩
  · intro o ho hne hmem
    obtain ⟨b, hb, rfl⟩ := List.mem_map.mp ho
    have hmem' : a.address ∈ updateNeighborList cfg dist obst
        (updateOutages now enterDraw durationDraw ms) b := hmem
    unfold updateNeighborList at hmem'
    by_cases hiob : b.inOutage = true
    · rw [if_pos hiob] at hmem'
      simp at hmem'
    · rw [if_neg hiob] at hmem'
      obtain ⟨c, hcf, hceq⟩ := List.mem_map.mp hmem'
      obtain ⟨hcmem, hcp⟩ := List.mem_filter.mp hcf
      have hcio : c.inOutage = false := by
        have h1 := ((Bool.and_eq_true _ _).mp
          (((Bool.and_eq_true _ _).mp hcp).1)).2
        simpa using h1
      have hac : a = c :=
        List.inj_on_of_nodup_map hnodup' ha hcmem hceq.symm
      rw [← hac] at hcio
      rw [hioa] at hcio
      exact Bool.noConfusion hcio
  · intro o dropOk
    simp [eligibleRecipient, hnb]
  · intro s dropOk
    simp [eligibleRecipient, hnb]

/-- Witness for outage isolation: in a two-node swarm whose first node is in
outage after the update, that node is an eligible recipient of nothing. -/
theorem commsModelUpdate_outage_isolated_witness :
    eligibleRecipient (CommsConfig.mk (-1) (-1) 0 (-1) (-1) 0 0 0 0 (-1) (-1))
        (fun _ _ => 1) (fun _ _ => ObstructionResult.clear)
        (Member.mk "a" true (some 10) []) (Member.mk "b" false none []) true
      = false :=
  ((commsModelUpdate_outage_isolated
      (CommsConfig.mk (-1) (-1) 0 (-1) (-1) 0 0 0 0 (-1) (-1)) 3
      (fun _ => false) (fun _ => 1) (fun _ _ => 1)
      (fun _ _ => ObstructionResult.clear)
      [Member.mk "a" true (some 10) [], Member.mk "b" false none []]
      (by decide) (Member.mk "a" true (some 10) []) (by decide) rfl).2.2.1
    (Member.mk "b" false none []) true)

end Swarm
